import Mathlib

/-!
Verification development for scripts/process_prompt.py.

Python strings are modelled as `List Char` where character-level reasoning
is needed (template rendering) and as `String` at the pipeline level.
Python `str.replace` is modelled by a fuelled left-to-right scan whose fuel
is always instantiated with the length of the scanned list, so the model is
structurally recursive and kernel-executable.  External effects (file
reads, the Bedrock call, file writes, S3 uploads) are oracles packaged in a
`World` record; fallible calls return `Except`.
-/

/-- The placeholder built by render_template: the character `{`, then the
key, then the character `}` (Python's `f"{{{key}}}"`). -/
def marker (key : List Char) : List Char :=
  '{' :: (key ++ ['}'])

/-- One left-to-right scan of Python `str.replace(old, new)` for the
nonempty pattern `o :: os`: at each position, if the pattern starts here
the replacement is emitted and the scan resumes after the matched text,
otherwise the character is copied.  The fuel bounds the number of scanned
positions; callers always supply the length of the scanned list, which
makes the fuel-exhaustion arm unreachable. -/
def replaceAuxF (o : Char) (os new : List Char) : Nat → List Char → List Char
  | _, [] => []
  | 0, s => s
  | n + 1, c :: rest =>
    if (o :: os).isPrefixOf (c :: rest) then
      new ++ replaceAuxF o os new n (rest.drop os.length)
    else
      c :: replaceAuxF o os new n rest

/-- Python `s.replace(old, new)`.  render_template only ever calls this
with the nonempty patterns produced by `marker`, so the empty-pattern arm
(where Python would interleave `new` between all characters) is modelled
as the identity and never reached. -/
def listReplace (s old new : List Char) : List Char :=
  match old with
  | [] => s
  | o :: os => replaceAuxF o os new s.length s

/-- render_template from scripts/process_prompt.py: starting from the
template, fold `str.replace("{" + key + "}", str(value))` over the
variable mapping in insertion (iteration) order. -/
def render_template (template : List Char) (vars : List (List Char × List Char)) : List Char :=
  vars.foldl (fun rendered kv => listReplace rendered (marker kv.1) kv.2) template

/-- Whether the pattern `p` occurs as a contiguous substring of `s`. -/
def occursB (p : List Char) : List Char → Bool
  | [] => p.isPrefixOf []
  | c :: rest => p.isPrefixOf (c :: rest) || occursB p rest

/-- Number of positions of `s` at which the pattern `p` starts. -/
def countOcc (p s : List Char) : Nat :=
  ((List.range (s.length + 1)).filter (fun i => p.isPrefixOf (s.drop i))).length

/-- First-match association-list lookup; models indexing a Python dict
(whose keys are unique, so the first match is the only match). -/
def assocLookup {α β : Type} [DecidableEq α] (k : α) : List (α × β) → Option β
  | [] => none
  | kv :: rest => if kv.1 = k then some kv.2 else assocLookup k rest

/-- First entry of the mapping whose marker starts at the given suffix. -/
def findMatch (s : List Char) : List (List Char × List Char) → Option (List Char × List Char)
  | [] => none
  | kv :: rest => if (marker kv.1).isPrefixOf s then some kv else findMatch s rest

/-- Modelled from the spec: fuelled single pass of the simultaneous
substitution the spec describes — every occurrence of a placeholder for a
known name is replaced by its value, and all other text, including markers
of absent names, is left verbatim; substituted values are not rescanned. -/
def specRenderF (v : List (List Char × List Char)) : Nat → List Char → List Char
  | _, [] => []
  | 0, s => s
  | n + 1, c :: rest =>
    match findMatch (c :: rest) v with
    | some kv => kv.2 ++ specRenderF v n ((c :: rest).drop (marker kv.1).length)
    | none => c :: specRenderF v n rest

/-- Modelled from the spec: simultaneous placeholder substitution, the
reference point against which render_template's sequential fold is
compared. -/
def specRender (v : List (List Char × List Char)) (t : List Char) : List Char :=
  specRenderF v t.length t

/-- A template segment: literal text or a placeholder for a name. -/
inductive Seg where
  | lit (s : List Char)
  | mark (k : List Char)
deriving DecidableEq

/-- The text of one segment. -/
def Seg.flat : Seg → List Char
  | .lit s => s
  | .mark k => marker k

/-- The text of a segment list. -/
def flattenSegs : List Seg → List Char
  | [] => []
  | seg :: rest => seg.flat ++ flattenSegs rest

/-- Text that contains no opening brace. -/
def noOpen (s : List Char) : Prop := ∀ c ∈ s, c ≠ '{'

/-- Text that contains neither brace. -/
def braceFree (s : List Char) : Prop := ∀ c ∈ s, c ≠ '{' ∧ c ≠ '}'

/-- A well-formed segment: literal text has no opening brace, and a
placeholder name has no brace at all. -/
def SegOK : Seg → Prop
  | .lit s => noOpen s
  | .mark k => braceFree k

instance (s : List Char) : Decidable (noOpen s) :=
  decidable_of_iff (∀ c ∈ s, c ≠ '{') Iff.rfl

instance (s : List Char) : Decidable (braceFree s) :=
  decidable_of_iff (∀ c ∈ s, c ≠ '{' ∧ c ≠ '}') Iff.rfl

instance (s : Seg) : Decidable (SegOK s) :=
  match s with
  | .lit s => (inferInstance : Decidable (noOpen s))
  | .mark k => (inferInstance : Decidable (braceFree k))

/-- All segments well formed. -/
def SegsOK (segs : List Seg) : Prop := ∀ s ∈ segs, SegOK s

/-- A well-formed mapping: every key is brace-free and every value
contains no opening brace. -/
def valsOK (v : List (List Char × List Char)) : Prop :=
  ∀ kv ∈ v, braceFree kv.1 ∧ noOpen kv.2

instance (segs : List Seg) : Decidable (SegsOK segs) :=
  decidable_of_iff (∀ s ∈ segs, SegOK s) Iff.rfl

instance (v : List (List Char × List Char)) : Decidable (valsOK v) :=
  decidable_of_iff (∀ kv ∈ v, braceFree kv.1 ∧ noOpen kv.2) Iff.rfl

/-- Effect of one `str.replace` of the marker of `k` by `w` on a segment. -/
def replaceSeg (k w : List Char) : Seg → Seg
  | .lit s => .lit s
  | .mark k' => if k' = k then .lit w else .mark k'

/-- Effect of simultaneous substitution on a segment. -/
def applySeg (v : List (List Char × List Char)) : Seg → Seg
  | .lit s => .lit s
  | .mark k =>
    match assocLookup k v with
    | some w => .lit w
    | none => .mark k

/-- The request body invoke_bedrock builds for Claude 3 (the single user
message is kept inline since the list always has exactly one element). -/
structure BedrockBody where
  anthropic_version : String
  max_tokens : ℚ
  temperature : ℚ
  message : String
deriving DecidableEq

/-- The full invoke_model request: fixed model id plus the body. -/
structure BedrockRequest where
  modelId : String
  body : BedrockBody
deriving DecidableEq

/-- The combined prompt built in invoke_bedrock:
`f"{instruction}\n\nContent to transform:\n{prompt}"`. -/
def fullPrompt (instruction prompt : String) : String :=
  instruction ++ "\n\nContent to transform:\n" ++ prompt

/-- The request invoke_bedrock sends: fixed anthropic_version and model
id, `max_tokens` defaulting to 2000 and `temperature` defaulting to 0.7
via dict.get, and the combined prompt as the single user message. -/
def mkBedrockRequest (prompt instruction : String) (modelParams : List (String × ℚ)) : BedrockRequest :=
  { modelId := "anthropic.claude-3-sonnet-20240229-v1:0"
    body :=
      { anthropic_version := "bedrock-2023-05-31"
        max_tokens := (assocLookup (r"max_tokens") modelParams).getD 2000
        temperature := (assocLookup (r"temperature") modelParams).getD (7 / 10)
        message := fullPrompt instruction prompt } }

/-- One prompt configuration file (the JSON document), with the variable
values already in string form. -/
structure PromptConfig where
  template : String
  vars : List (List Char × List Char)
  instruction : String
  model_params : List (String × ℚ)
  output_file : String
deriving DecidableEq

/-- External collaborators and process environment: config parsing,
template reads, the Bedrock endpoint, the local filesystem, S3, the two
bucket environment variables, and the glob result of the prompts
directory. -/
structure World where
  readConfig : String → Except String PromptConfig
  readTemplate : String → Except String (List Char)
  bedrockInvoke : BedrockRequest → Except String String
  writeFile : String → String → Except String Unit
  s3Upload : String → String → String → Except String Unit
  s3BucketBeta : Option String
  s3BucketProd : Option String
  promptFiles : List String

/-- load_template: read `prompt_templates/<name>`. -/
def load_template (w : World) (templateName : String) : Except String (List Char) :=
  w.readTemplate ("prompt_templates/" ++ templateName)

/-- invoke_bedrock: build the request and perform the single backend call;
response parsing failures surface through the oracle's error case. -/
def invoke_bedrock (w : World) (prompt instruction : String) (modelParams : List (String × ℚ)) : Except String String :=
  w.bedrockInvoke (mkBedrockRequest prompt instruction modelParams)

/-- save_output: write the content to `outputs/<filename>` and return that
path (the directory creation is folded into the write oracle). -/
def save_output (w : World) (content filename : String) : Except String String :=
  match w.writeFile ("outputs/" ++ filename) content with
  | .ok _ => .ok ("outputs/" ++ filename)
  | .error e => .error e

/-- upload_to_s3: attempt the upload; a failure is reported and then
re-raised, so the error propagates to the caller. -/
def upload_to_s3 (w : World) (filePath bucketName s3Key : String) : Except String Unit :=
  match w.s3Upload filePath bucketName s3Key with
  | .ok u => .ok u
  | .error e => .error e

/-- Observable steps of one pipeline iteration, each tagged with the
configuration file that produced it. -/
inductive Event where
  | rendered (file : String) (prompt : String)
  | invoked (file : String) (req : BedrockRequest)
  | saved (file : String) (path : String) (content : String)
  | uploaded (file : String) (path : String) (bucket : String) (key : String)
deriving DecidableEq

/-- The configuration file an event belongs to. -/
def eventFile : Event → String
  | .rendered f _ => f
  | .invoked f _ => f
  | .saved f _ _ => f
  | .uploaded f _ _ _ => f

/-- Whether an event is an S3 upload. -/
def isUpload : Event → Bool
  | .uploaded _ _ _ _ => true
  | _ => false

/-- process_prompt_file: load the configuration, load and render the
template, invoke Bedrock, save locally, resolve the environment's bucket
and key, and upload when the bucket value is truthy (Python `if bucket:`
skips both an unset and an empty bucket).  Returns the observable events
together with the unhandled error, if any. -/
def process_prompt_file (w : World) (environment : String) (promptFile : String) :
    List Event × Option String :=
  match w.readConfig promptFile with
  | .error e => ([], some e)
  | .ok config =>
    match load_template w config.template with
    | .error e => ([], some e)
    | .ok template =>
      let renderedPrompt := (render_template template config.vars).asString
      let req := mkBedrockRequest renderedPrompt config.instruction config.model_params
      match invoke_bedrock w renderedPrompt config.instruction config.model_params with
      | .error e => ([.rendered promptFile renderedPrompt, .invoked promptFile req], some e)
      | .ok generatedContent =>
        match save_output w generatedContent config.output_file with
        | .error e => ([.rendered promptFile renderedPrompt, .invoked promptFile req], some e)
        | .ok outputPath =>
          let bucket := if environment = "beta" then w.s3BucketBeta else w.s3BucketProd
          let s3Key := (if environment = "beta" then (r"beta/outputs/") else (r"prod/outputs/"))
            ++ config.output_file
          let doneEvents := [Event.rendered promptFile renderedPrompt,
            Event.invoked promptFile req,
            Event.saved promptFile outputPath generatedContent]
          match bucket with
          | none => (doneEvents, none)
          | some b =>
            if b.isEmpty then (doneEvents, none)
            else
              match upload_to_s3 w outputPath b s3Key with
              | .ok _ => (doneEvents ++ [Event.uploaded promptFile outputPath b s3Key], none)
              | .error e => (doneEvents, some e)

/-- The per-file loop of main: on the first unhandled error, report and
`sys.exit(1)`; later files are never reached.  Returns the exit code and
the accumulated events. -/
def runLoop (w : World) (environment : String) : List String → Nat × List Event
  | [] => (0, [])
  | f :: fs =>
    match process_prompt_file w environment f with
    | (evs, some _) => (1, evs)
    | (evs, none) =>
      let tailRes := runLoop w environment fs
      (tailRes.1, evs ++ tailRes.2)

/-- Python str.lower restricted to its per-character action (the
argument is compared against the ASCII words beta and prod, for which
lowercasing is exactly a character map). -/
def lowerStr (s : String) : String := String.mk (s.data.map Char.toLower)

/-- main: argument check, environment validation, discovery (exit 1 when
no prompt files are found), then the fail-fast loop. -/
def mainRun (w : World) (sysArgv : List String) : Nat × List Event :=
  match sysArgv with
  | [] => (1, [])
  | [_] => (1, [])
  | _prog :: envArg :: _ =>
    let environment := lowerStr envArg
    if environment ≠ "beta" ∧ environment ≠ "prod" then (1, [])
    else if w.promptFiles.isEmpty then (1, [])
    else runLoop w environment w.promptFiles

/-! ### Concrete fixtures used by the witnesses -/

/-- The end-to-end example configuration of the spec: template `a.txt`,
one variable `name := Bob` (abbreviated to `n` here), instruction
`Summarize`, empty model parameters, output `out.txt`. -/
def config0 : PromptConfig :=
  { template := "a.txt"
    vars := [([ 'n' ], ['B', 'o', 'b'])]
    instruction := "Summarize"
    model_params := []
    output_file := "out.txt" }

/-- Template text with one placeholder: `Hello {n}`. -/
def tpl0 : List Char := ['H', 'e', 'l', 'l', 'o', ' ', '{', 'n', '}']

/-- A world where every stage succeeds and no bucket is configured. -/
def w0 : World :=
  { readConfig := fun _ => .ok config0
    readTemplate := fun _ => .ok tpl0
    bedrockInvoke := fun _ => .ok (r"GEN")
    writeFile := fun _ _ => .ok ()
    s3Upload := fun _ _ _ => .error (r"denied")
    s3BucketBeta := none
    s3BucketProd := none
    promptFiles := [r"prompts/one.json"] }

/-- Like w0 but the beta bucket variable is set to the empty string. -/
def w1 : World := { w0 with s3BucketBeta := some (r"") }

/-- Like w0 but the beta bucket is set and the upload always fails. -/
def w2 : World := { w0 with s3BucketBeta := some (r"bkt") }

/-- Like w0 but reading the configuration named `bad` fails, and three
prompt files are discovered. -/
def w3 : World :=
  { w0 with
    readConfig := fun f => if f = "bad" then .error (r"nope") else .ok config0
    promptFiles := [r"good", r"bad", r"after"] }

/-- Like w0 but discovery finds no prompt files. -/
def w4 : World := { w0 with promptFiles := [] }

/-- Well-formed example segments: `Hi {n}!{c}`. -/
def exSegs : List Seg :=
  [Seg.lit ['H', 'i', ' '], Seg.mark ['n'], Seg.lit ['!'], Seg.mark ['c']]

/-- Well-formed example mapping with two distinct keys. -/
def exVars : List (List Char × List Char) :=
  [([ 'n' ], ['B', 'o', 'b']), ([ 'c' ], ['X'])]

/-- The interfering mapping of the counterexamples: the value of `a`
contains the marker of `b`. -/
def badVars : List (List Char × List Char) :=
  [([ 'a' ], ['{', 'b', '}']), ([ 'b' ], ['Z'])]

/-! ### Properties of the fuelled replace scan -/

theorem replaceAuxF_nil (o : Char) (os new : List Char) (n : Nat) :
    replaceAuxF o os new n [] = [] := by
  cases n <;> rfl

theorem marker_length (k : List Char) : (marker k).length = k.length + 2 := by
  simp [marker]

theorem isPrefixOf_self_append (p R : List Char) : p.isPrefixOf (p ++ R) = true := by
  simp only [List.isPrefixOf_iff_prefix]
  exact List.prefix_append p R

theorem replaceAuxF_fuel (o : Char) (os new : List Char) :
    ∀ (n : Nat) (s : List Char) (m : Nat), s.length ≤ n → s.length ≤ m →
      replaceAuxF o os new n s = replaceAuxF o os new m s := by
  intro n
  induction n with
  | zero =>
    intro s m h1 _
    have hs : s = [] := List.length_eq_zero.mp (Nat.le_zero.mp h1)
    subst hs
    simp [replaceAuxF_nil]
  | succ n ih =>
    intro s m h1 h2
    cases s with
    | nil => simp [replaceAuxF_nil]
    | cons c rest =>
      simp only [List.length_cons] at h1 h2
      cases m with
      | zero => omega
      | succ m' =>
        simp only [replaceAuxF]
        by_cases hp : (o :: os).isPrefixOf (c :: rest)
        · rw [if_pos hp, if_pos hp]
          congr 1
          apply ih
          · simp only [List.length_drop]
            omega
          · simp only [List.length_drop]
            omega
        · rw [if_neg hp, if_neg hp]
          congr 1
          apply ih
          · omega
          · omega

theorem specRenderF_nil (v : List (List Char × List Char)) (n : Nat) :
    specRenderF v n [] = [] := by
  cases n <;> rfl

theorem specRenderF_fuel (v : List (List Char × List Char)) :
    ∀ (n : Nat) (s : List Char) (m : Nat), s.length ≤ n → s.length ≤ m →
      specRenderF v n s = specRenderF v m s := by
  intro n
  induction n with
  | zero =>
    intro s m h1 _
    have hs : s = [] := List.length_eq_zero.mp (Nat.le_zero.mp h1)
    subst hs
    simp [specRenderF_nil]
  | succ n ih =>
    intro s m h1 h2
    cases s with
    | nil => simp [specRenderF_nil]
    | cons c rest =>
      simp only [List.length_cons] at h1 h2
      cases m with
      | zero => omega
      | succ m' =>
        cases hf : findMatch (c :: rest) v with
        | none =>
          simp only [specRenderF, hf]
          congr 1
          apply ih
          · omega
          · omega
        | some kv =>
          simp only [specRenderF, hf]
          congr 1
          apply ih
          · simp only [List.length_drop, marker_length, List.length_cons]
            omega
          · simp only [List.length_drop, marker_length, List.length_cons]
            omega

/-! ### Scanning past literal text and mismatched markers -/

theorem findMatch_none_of_head (c : Char) (xs : List Char) (hc : c ≠ '{') :
    ∀ v, findMatch (c :: xs) v = none := by
  intro v
  induction v with
  | nil => rfl
  | cons kv rest ih =>
    have hne : ((marker kv.1).isPrefixOf (c :: xs)) ≠ true := by
      simp only [ne_eq, List.isPrefixOf_iff_prefix, marker, List.cons_prefix_cons]
      rintro ⟨h, -⟩
      exact hc h.symm
    simp [findMatch, hne, ih]

theorem replace_skip (os new : List Char) :
    ∀ (l R : List Char) (n m : Nat), (∀ c ∈ l, c ≠ '{') →
      (l ++ R).length ≤ n → R.length ≤ m →
      replaceAuxF '{' os new n (l ++ R) = l ++ replaceAuxF '{' os new m R := by
  intro l
  induction l with
  | nil =>
    intro R n m _ h1 h2
    simpa using replaceAuxF_fuel '{' os new n R m (by simpa using h1) h2
  | cons c l ih =>
    intro R n m hl h1 h2
    have hc : c ≠ '{' := hl c (by simp)
    simp only [List.cons_append, List.length_cons] at h1 ⊢
    cases n with
    | zero => simp at h1
    | succ n' =>
      have hp : (('{' :: os).isPrefixOf (c :: (l ++ R))) ≠ true := by
        simp only [ne_eq, List.isPrefixOf_iff_prefix, List.cons_prefix_cons]
        rintro ⟨h, -⟩
        exact hc h.symm
      simp only [replaceAuxF]
      rw [if_neg hp]
      have := ih R n' m (fun d hd => hl d (List.mem_cons_of_mem _ hd)) (by omega) h2
      rw [this]

theorem spec_skip (v : List (List Char × List Char)) :
    ∀ (l R : List Char) (n m : Nat), (∀ c ∈ l, c ≠ '{') →
      (l ++ R).length ≤ n → R.length ≤ m →
      specRenderF v n (l ++ R) = l ++ specRenderF v m R := by
  intro l
  induction l with
  | nil =>
    intro R n m _ h1 h2
    simpa using specRenderF_fuel v n R m (by simpa using h1) h2
  | cons c l ih =>
    intro R n m hl h1 h2
    have hc : c ≠ '{' := hl c (by simp)
    simp only [List.cons_append, List.length_cons] at h1 ⊢
    cases n with
    | zero => simp at h1
    | succ n' =>
      simp only [specRenderF, findMatch_none_of_head c (l ++ R) hc v]
      have := ih R n' m (fun d hd => hl d (List.mem_cons_of_mem _ hd)) (by omega) h2
      rw [this]

theorem key_mismatch :
    ∀ (k k' R : List Char), (∀ c ∈ k, c ≠ '}') → (∀ c ∈ k', c ≠ '}') → k ≠ k' →
      ¬ ((k ++ ['}']) <+: (k' ++ '}' :: R)) := by
  intro k
  induction k with
  | nil =>
    intro k' R _ hk' hne
    cases k' with
    | nil => exact absurd rfl hne
    | cons c k2 =>
      simp only [List.nil_append, List.cons_append, List.cons_prefix_cons]
      rintro ⟨h, -⟩
      exact hk' c (by simp) h.symm
  | cons c k2 ih =>
    intro k' R hk hk' hne
    have hc : c ≠ '}' := hk c (by simp)
    cases k' with
    | nil =>
      simp only [List.nil_append, List.cons_append, List.cons_prefix_cons]
      rintro ⟨h, -⟩
      exact hc h
    | cons c' k2' =>
      simp only [List.cons_append, List.cons_prefix_cons]
      rintro ⟨hcc, htail⟩
      subst hcc
      have hne2 : k2 ≠ k2' := by
        intro h
        exact hne (by rw [h])
      exact ih k2' R (fun d hd => hk d (List.mem_cons_of_mem _ hd))
        (fun d hd => hk' d (List.mem_cons_of_mem _ hd)) hne2 htail

/-! ### Segmentwise action of replace and of the simultaneous pass -/

theorem noOpen_key_close {k : List Char} (hk : braceFree k) : noOpen (k ++ ['}']) := by
  intro d hd
  rcases List.mem_append.mp hd with h | h
  · exact (hk d h).1
  · simp at h
    subst h
    decide

theorem flattenSegs_length_mark (k : List Char) (rest : List Seg) :
    (flattenSegs (Seg.mark k :: rest)).length = k.length + 2 + (flattenSegs rest).length := by
  simp [flattenSegs, Seg.flat, marker]
  omega

theorem replace_segs (k w : List Char) (hk : braceFree k) :
    ∀ (segs : List Seg) (n : Nat), SegsOK segs → (flattenSegs segs).length ≤ n →
      replaceAuxF '{' (k ++ ['}']) w n (flattenSegs segs) =
        flattenSegs (segs.map (replaceSeg k w)) := by
  intro segs
  induction segs with
  | nil =>
    intro n _ _
    simp [flattenSegs, replaceAuxF_nil]
  | cons seg rest ih =>
    intro n hok hn
    have hokrest : SegsOK rest := fun s hs => hok s (List.mem_cons_of_mem _ hs)
    cases seg with
    | lit s =>
      have hs : noOpen s := hok (.lit s) (by simp)
      simp only [flattenSegs, Seg.flat, List.map_cons, replaceSeg]
      rw [replace_skip (k ++ ['}']) w s (flattenSegs rest) n (flattenSegs rest).length hs
        (by simp only [flattenSegs, Seg.flat] at hn; exact hn) (le_refl _)]
      rw [ih (flattenSegs rest).length hokrest (le_refl _)]
    | mark k' =>
      have hk' : braceFree k' := hok (.mark k') (by simp)
      have hlen := flattenSegs_length_mark k' rest
      cases n with
      | zero => omega
      | succ n' =>
        have hfr : (flattenSegs rest).length ≤ n' := by omega
        simp only [flattenSegs, Seg.flat, marker, List.cons_append, List.map_cons]
        by_cases hkk : k' = k
        · subst hkk
          have hpre : (('{' :: (k' ++ ['}'])).isPrefixOf
              ('{' :: ((k' ++ ['}']) ++ flattenSegs rest))) = true := by
            have := isPrefixOf_self_append ('{' :: (k' ++ ['}'])) (flattenSegs rest)
            simpa [List.cons_append] using this
          simp only [replaceAuxF, hpre, if_true]
          rw [List.drop_left]
          rw [ih n' hokrest hfr]
          simp [replaceSeg, flattenSegs, Seg.flat]
        · have hne : k ≠ k' := fun h => hkk h.symm
          have hpre : (('{' :: (k ++ ['}'])).isPrefixOf
              ('{' :: ((k' ++ ['}']) ++ flattenSegs rest))) ≠ true := by
            simp only [ne_eq, List.isPrefixOf_iff_prefix, List.cons_prefix_cons]
            rintro ⟨-, h⟩
            have hconv : (k' ++ ['}']) ++ flattenSegs rest = k' ++ '}' :: flattenSegs rest := by
              simp [List.append_assoc]
            rw [hconv] at h
            exact key_mismatch k k' (flattenSegs rest)
              (fun d hd => (hk d hd).2) (fun d hd => (hk' d hd).2) hne h
          simp only [replaceAuxF]
          rw [if_neg hpre]
          rw [replace_skip (k ++ ['}']) w (k' ++ ['}']) (flattenSegs rest) n'
            (flattenSegs rest).length (noOpen_key_close hk')
            (by simp only [List.length_append, List.length_cons, List.length_nil]; omega)
            (le_refl _)]
          rw [ih (flattenSegs rest).length hokrest (le_refl _)]
          simp [replaceSeg, hkk, flattenSegs, Seg.flat, marker, List.cons_append]

theorem findMatch_mark (k fr : List Char) (hk : braceFree k) :
    ∀ v, valsOK v →
      findMatch ('{' :: ((k ++ ['}']) ++ fr)) v =
        (assocLookup k v).map (fun w => (k, w)) := by
  intro v
  induction v with
  | nil => intro _; rfl
  | cons kv rest ih =>
    intro hv
    have hkv : braceFree kv.1 := (hv kv (by simp)).1
    simp only [findMatch, assocLookup]
    by_cases hq : kv.1 = k
    · have hpre : ((marker kv.1).isPrefixOf ('{' :: ((k ++ ['}']) ++ fr))) = true := by
        rw [hq]
        have := isPrefixOf_self_append (marker k) fr
        simpa [marker, List.cons_append] using this
      rw [if_pos hpre, if_pos hq]
      simp [← hq]
    · have hpre : ((marker kv.1).isPrefixOf ('{' :: ((k ++ ['}']) ++ fr))) ≠ true := by
        simp only [ne_eq, List.isPrefixOf_iff_prefix, marker, List.cons_prefix_cons]
        rintro ⟨-, h⟩
        have hconv : (k ++ ['}']) ++ fr = k ++ '}' :: fr := by
          simp [List.append_assoc]
        rw [hconv] at h
        exact key_mismatch kv.1 k fr
          (fun d hd => (hkv d hd).2) (fun d hd => (hk d hd).2) hq h
      rw [if_neg hpre, if_neg hq]
      exact ih (fun x hx => hv x (List.mem_cons_of_mem _ hx))

theorem spec_segs :
    ∀ (segs : List Seg) (v : List (List Char × List Char)) (n : Nat),
      SegsOK segs → valsOK v → (flattenSegs segs).length ≤ n →
      specRenderF v n (flattenSegs segs) = flattenSegs (segs.map (applySeg v)) := by
  intro segs
  induction segs with
  | nil =>
    intro v n _ _ _
    simp [flattenSegs, specRenderF_nil]
  | cons seg rest ih =>
    intro v n hok hv hn
    have hokrest : SegsOK rest := fun s hs => hok s (List.mem_cons_of_mem _ hs)
    cases seg with
    | lit s =>
      have hs : noOpen s := hok (.lit s) (by simp)
      simp only [flattenSegs, Seg.flat, List.map_cons, applySeg]
      rw [spec_skip v s (flattenSegs rest) n (flattenSegs rest).length hs
        (by simp only [flattenSegs, Seg.flat] at hn; exact hn) (le_refl _)]
      rw [ih v (flattenSegs rest).length hokrest hv (le_refl _)]
    | mark k =>
      have hk : braceFree k := hok (.mark k) (by simp)
      have hlen := flattenSegs_length_mark k rest
      cases n with
      | zero => omega
      | succ n' =>
        have hfr : (flattenSegs rest).length ≤ n' := by omega
        simp only [flattenSegs, Seg.flat, marker, List.cons_append, List.map_cons]
        have hfind := findMatch_mark k (flattenSegs rest) hk v hv
        cases hl : assocLookup k v with
        | some w =>
          rw [hl] at hfind
          simp only [specRenderF, hfind, Option.map_some']
          have hdrop : (('{' :: ((k ++ ['}']) ++ flattenSegs rest)).drop (marker k).length)
              = flattenSegs rest := by
            have hshape : ('{' :: ((k ++ ['}']) ++ flattenSegs rest))
                = marker k ++ flattenSegs rest := by
              simp [marker, List.cons_append]
            rw [hshape, List.drop_left]
          rw [hdrop, ih v n' hokrest hv hfr]
          simp [applySeg, hl, flattenSegs, Seg.flat]
        | none =>
          rw [hl] at hfind
          simp only [specRenderF, hfind, Option.map_none']
          rw [spec_skip v (k ++ ['}']) (flattenSegs rest) n' (flattenSegs rest).length
            (noOpen_key_close hk)
            (by simp only [List.length_append, List.length_cons, List.length_nil]; omega)
            (le_refl _)]
          rw [ih v (flattenSegs rest).length hokrest hv (le_refl _)]
          simp [applySeg, hl, flattenSegs, Seg.flat, marker, List.cons_append]

theorem applySeg_nil (seg : Seg) : applySeg [] seg = seg := by
  cases seg <;> simp [applySeg, assocLookup]

theorem map_applySeg_nil (segs : List Seg) : segs.map (applySeg []) = segs := by
  induction segs with
  | nil => rfl
  | cons seg rest ih => simp [applySeg_nil, ih]

theorem render_template_segs :
    ∀ (v : List (List Char × List Char)) (segs : List Seg), SegsOK segs → valsOK v →
      render_template (flattenSegs segs) v = flattenSegs (segs.map (applySeg v)) := by
  intro v
  induction v with
  | nil =>
    intro segs _ _
    rw [map_applySeg_nil]
    rfl
  | cons kv v ih =>
    intro segs hok hv
    have hkey : braceFree kv.1 := (hv kv (by simp)).1
    have hval : noOpen kv.2 := (hv kv (by simp)).2
    have hstep : render_template (flattenSegs segs) (kv :: v) =
        render_template (listReplace (flattenSegs segs) (marker kv.1) kv.2) v := rfl
    rw [hstep]
    have hrepl : listReplace (flattenSegs segs) (marker kv.1) kv.2 =
        flattenSegs (segs.map (replaceSeg kv.1 kv.2)) := by
      simp only [listReplace, marker]
      exact replace_segs kv.1 kv.2 hkey segs (flattenSegs segs).length hok (le_refl _)
    rw [hrepl]
    have hok' : SegsOK (segs.map (replaceSeg kv.1 kv.2)) := by
      intro s hs
      rcases List.mem_map.mp hs with ⟨t, ht, rfl⟩
      cases t with
      | lit s => simpa [replaceSeg] using hok _ ht
      | mark k' =>
        by_cases h : k' = kv.1
        · simpa [replaceSeg, h] using hval
        · simpa [replaceSeg, h] using hok _ ht
    have hv' : valsOK v := fun x hx => hv x (List.mem_cons_of_mem _ hx)
    rw [ih (segs.map (replaceSeg kv.1 kv.2)) hok' hv']
    rw [List.map_map]
    congr 1
    apply List.map_congr_left
    intro s _
    cases s with
    | lit s => simp [applySeg, replaceSeg, Function.comp]
    | mark k' =>
      by_cases h : k' = kv.1
      · simp [applySeg, replaceSeg, h, assocLookup]
      · have h2 : kv.1 ≠ k' := fun hh => h hh.symm
        simp [applySeg, replaceSeg, h, assocLookup, h2]

theorem render_eq_spec_of_wf (segs : List Seg) (v : List (List Char × List Char))
    (h1 : SegsOK segs) (h2 : valsOK v) :
    render_template (flattenSegs segs) v = specRender v (flattenSegs segs) := by
  rw [render_template_segs v segs h1 h2]
  rw [specRender, spec_segs segs v (flattenSegs segs).length h1 h2 (le_refl _)]

/-! ### Rendering with no matching markers, and lookup under permutation -/

theorem replaceAuxF_no_occ (o : Char) (os new : List Char) :
    ∀ (s : List Char) (n : Nat), occursB (o :: os) s = false →
      replaceAuxF o os new n s = s := by
  intro s
  induction s with
  | nil => intro n _; exact replaceAuxF_nil o os new n
  | cons c rest ih =>
    intro n h
    simp only [occursB, Bool.or_eq_false_iff] at h
    obtain ⟨h1, h2⟩ := h
    cases n with
    | zero => rfl
    | succ n' =>
      simp only [replaceAuxF]
      rw [if_neg (by simp [h1])]
      rw [ih n' h2]

theorem render_template_no_occ :
    ∀ (v : List (List Char × List Char)) (t : List Char),
      (∀ kv ∈ v, occursB (marker kv.1) t = false) → render_template t v = t := by
  intro v
  induction v with
  | nil => intro t _; rfl
  | cons kv rest ih =>
    intro t h
    have h1 := h kv (by simp)
    simp only [marker] at h1
    have hstep : render_template t (kv :: rest) =
        render_template (listReplace t (marker kv.1) kv.2) rest := rfl
    rw [hstep]
    have hid : listReplace t (marker kv.1) kv.2 = t := by
      simp only [listReplace, marker]
      exact replaceAuxF_no_occ '{' (kv.1 ++ ['}']) kv.2 t t.length h1
    rw [hid]
    exact ih t (fun x hx => h x (List.mem_cons_of_mem _ hx))

theorem assocLookup_perm {α β : Type} [DecidableEq α] (k : α) :
    ∀ {v v' : List (α × β)}, v.Perm v' → (v.map Prod.fst).Nodup →
      assocLookup k v = assocLookup k v' := by
  intro v v' hp
  induction hp with
  | nil => intro _; rfl
  | cons x h ih =>
    intro hn
    simp only [assocLookup]
    by_cases hx : x.1 = k
    · simp [hx]
    · simp only [hx, if_false]
      simp only [List.map_cons, List.nodup_cons] at hn
      exact ih hn.2
  | swap x y l =>
    intro hn
    simp only [List.map_cons, List.nodup_cons, List.mem_cons] at hn
    simp only [assocLookup]
    by_cases hy : y.1 = k <;> by_cases hx : x.1 = k <;> simp [hy, hx]
    exfalso
    exact hn.1 (Or.inl (hy.trans hx.symm))
  | trans h1 h2 ih1 ih2 =>
    intro hn
    rw [ih1 hn]
    exact ih2 ((h1.map Prod.fst).nodup_iff.mp hn)

/-! ### Pipeline lemmas -/

theorem process_prompt_file_events (w : World) (env f : String) :
    ∀ e ∈ (process_prompt_file w env f).1, eventFile e = f := by
  intro e he
  simp only [process_prompt_file] at he
  repeat' split at he
  all_goals simp only [List.mem_cons, List.mem_append, List.mem_singleton,
    List.not_mem_nil, or_false, false_or] at he
  all_goals first
    | (rcases he with (rfl | rfl | rfl) | rfl <;> rfl)
    | (rcases he with rfl | rfl | rfl | rfl <;> rfl)

theorem runLoop_failfast (w : World) (env : String) :
    ∀ (l₁ : List String) (f : String) (l₂ : List String),
      (∀ g ∈ l₁, (process_prompt_file w env g).2 = none) →
      (process_prompt_file w env f).2.isSome →
      (runLoop w env (l₁ ++ f :: l₂)).1 = 1 ∧
      ∀ e ∈ (runLoop w env (l₁ ++ f :: l₂)).2, eventFile e ∈ l₁ ++ [f] := by
  intro l₁
  induction l₁ with
  | nil =>
    intro f l₂ _ hf
    cases hp : process_prompt_file w env f with
    | mk evs err =>
      cases err with
      | none => rw [hp] at hf; simp at hf
      | some e0 =>
        refine ⟨by simp [runLoop, hp], ?_⟩
        intro e he
        simp only [List.nil_append, runLoop, hp] at he
        have := process_prompt_file_events w env f e (by rw [hp]; exact he)
        simp [this]
  | cons g l₁ ih =>
    intro f l₂ hok hf
    have hg := hok g (by simp)
    cases hp : process_prompt_file w env g with
    | mk evs err =>
      rw [hp] at hg
      simp only at hg
      subst hg
      obtain ⟨ih1, ih2⟩ := ih f l₂ (fun x hx => hok x (List.mem_cons_of_mem _ hx)) hf
      constructor
      · simpa [runLoop, hp] using ih1
      · intro e he
        simp only [List.cons_append, runLoop, hp] at he
        rcases List.mem_append.mp he with h | h
        · have := process_prompt_file_events w env g e (by rw [hp]; exact h)
          simp [this]
        · have hmem := ih2 e h
          simp only [List.cons_append, List.mem_cons, List.mem_append,
            List.mem_singleton] at hmem ⊢
          tauto

/-! ### Claim theorems -/

/-- C1 counterexample: on template `{a}` with mapping `a := {b}, b := Z`,
render_template rewrites the text introduced by the value of `a` and
returns `Z`, whereas replacing every occurrence of a marker of a present
key by the string form of its value (and nothing else) yields `{b}`; so
the claim fails as stated. -/
theorem c1_counterexample :
    render_template ['{', 'a', '}'] badVars = ['Z'] ∧
    specRender badVars ['{', 'a', '}'] = ['{', 'b', '}'] ∧
    render_template ['{', 'a', '}'] badVars ≠ specRender badVars ['{', 'a', '}'] := by
  refine ⟨by decide, by decide, by decide⟩

/-- C1 (amended): for a template that is an alternation of literal text
without opening braces and markers with brace-free names, and a mapping
whose keys are brace-free and whose values contain no opening brace,
render_template replaces every occurrence of a marker of a present key by
the string form of its value and leaves markers of absent keys verbatim —
i.e. it agrees with the simultaneous substitution the claim describes. -/
theorem c1_render_matches_simultaneous_on_wf (segs : List Seg)
    (v : List (List Char × List Char)) (h1 : SegsOK segs) (h2 : valsOK v) :
    render_template (flattenSegs segs) v = specRender v (flattenSegs segs) :=
  render_eq_spec_of_wf segs v h1 h2

/-- C1 witness: the amended theorem applied to the well-formed template
`Hi {n}!{c}` and the mapping `n := Bob, c := X`. -/
theorem c1_witness :
    SegsOK exSegs ∧ valsOK exVars ∧
    render_template (flattenSegs exSegs) exVars = specRender exVars (flattenSegs exSegs) :=
  ⟨by decide, by decide, c1_render_matches_simultaneous_on_wf exSegs exVars (by decide) (by decide)⟩

/-- C6 counterexample: two mappings with exactly the same key-value pairs
(`a := {b}, b := Z`) in the two insertion orders render the template `{a}`
differently (`Z` versus `{b}`), so rendering does depend on the order of
entries. -/
theorem c6_counterexample :
    badVars.Perm badVars.reverse ∧
    (badVars.map Prod.fst).Nodup ∧
    render_template ['{', 'a', '}'] badVars ≠
      render_template ['{', 'a', '}'] badVars.reverse := by
  refine ⟨by decide, by decide, by decide⟩

/-- C6 (amended): for a well-formed template (alternating brace-free
literals and markers with brace-free names) and a mapping with distinct
brace-free keys and values without opening braces, the rendering result
does not depend on the insertion order of the mapping; with interfering
values or malformed braces it can (see the counterexample). -/
theorem c6_order_irrelevant_on_wf (segs : List Seg)
    (v v' : List (List Char × List Char)) (h1 : SegsOK segs) (h2 : valsOK v)
    (hp : v.Perm v') (hn : (v.map Prod.fst).Nodup) :
    render_template (flattenSegs segs) v = render_template (flattenSegs segs) v' := by
  have h2' : valsOK v' := fun kv hkv => h2 kv (hp.symm.subset hkv)
  rw [render_template_segs v segs h1 h2, render_template_segs v' segs h1 h2']
  congr 1
  apply List.map_congr_left
  intro s _
  cases s with
  | lit s => simp [applySeg]
  | mark k => simp [applySeg, assocLookup_perm k hp hn]

/-- C6 witness: the amended theorem applied to `Hi {n}!{c}` with the
mapping `n := Bob, c := X` and its reversal. -/
theorem c6_witness :
    SegsOK exSegs ∧ valsOK exVars ∧ exVars.Perm exVars.reverse ∧
    (exVars.map Prod.fst).Nodup ∧
    render_template (flattenSegs exSegs) exVars =
      render_template (flattenSegs exSegs) exVars.reverse :=
  ⟨by decide, by decide, by decide, by decide,
    c6_order_irrelevant_on_wf exSegs exVars exVars.reverse
      (by decide) (by decide) (by decide) (by decide)⟩

/-- C9: when no key of the mapping occurs as a marker anywhere in the
template, render_template returns the template unchanged (and, being a
total function, never raises). -/
theorem c9_identity_no_markers (t : List Char) (v : List (List Char × List Char))
    (h : ∀ kv ∈ v, occursB (marker kv.1) t = false) :
    render_template t v = t :=
  render_template_no_occ v t h

/-- C9 witness: the theorem applied to the template `Hello {x}` and the
mapping `n := Bob`, whose marker does not occur in it. -/
theorem c9_witness :
    (∀ kv ∈ [([ 'n' ], ['B', 'o', 'b'])],
      occursB (marker kv.1) ['H', 'i', ' ', '{', 'x', '}'] = false) ∧
    render_template ['H', 'i', ' ', '{', 'x', '}'] [([ 'n' ], ['B', 'o', 'b'])] =
      ['H', 'i', ' ', '{', 'x', '}'] :=
  ⟨by decide, c9_identity_no_markers _ _ (by decide)⟩

/-- C4: the text submitted to the backend is exactly the instruction,
then the fixed separator, then the rendered prompt; at the spec's example
instruction and prompt the combined input is the expected string, and the
instruction and prompt each start at exactly one position of it. -/
theorem c4_combined_prompt (instruction prompt : String) (mp : List (String × ℚ)) :
    (mkBedrockRequest prompt instruction mp).body.message =
      instruction ++ "\n\nContent to transform:\n" ++ prompt ∧
    fullPrompt (r"Summarize") (r"Hello Bob") =
      "Summarize\n\nContent to transform:\nHello Bob" ∧
    countOcc ("Summarize").toList
      ("Summarize\n\nContent to transform:\nHello Bob").toList = 1 ∧
    countOcc ("Hello Bob").toList
      ("Summarize\n\nContent to transform:\nHello Bob").toList = 1 := by
  refine ⟨rfl, rfl, by decide, by decide⟩

/-- C5: the resolved max_tokens is the mapping's value under max_tokens
when present and 2000 when absent, the resolved temperature is the value
under temperature when present and 0.7 when absent, and two parameter
mappings that agree under those two keys produce identical requests. -/
theorem c5_model_params (prompt instruction : String) (mp : List (String × ℚ)) :
    ((mkBedrockRequest prompt instruction mp).body.max_tokens =
      match assocLookup (r"max_tokens") mp with
      | some q => q
      | none => 2000) ∧
    ((mkBedrockRequest prompt instruction mp).body.temperature =
      match assocLookup (r"temperature") mp with
      | some q => q
      | none => 7 / 10) ∧
    (∀ mp' : List (String × ℚ),
      assocLookup (r"max_tokens") mp = assocLookup (r"max_tokens") mp' →
      assocLookup (r"temperature") mp = assocLookup (r"temperature") mp' →
      mkBedrockRequest prompt instruction mp = mkBedrockRequest prompt instruction mp') := by
  refine ⟨?_, ?_, ?_⟩
  · cases h : assocLookup (r"max_tokens") mp <;> simp [mkBedrockRequest, h]
  · cases h : assocLookup (r"temperature") mp <;> simp [mkBedrockRequest, h]
  · intro mp' h1 h2
    simp [mkBedrockRequest, h1, h2]

/-- C5 witness: with max_tokens set to 512 and an unrecognized key, the
request carries max_tokens 512 and the default temperature, and dropping
the unrecognized key leaves the request unchanged. -/
theorem c5_witness :
    (mkBedrockRequest (r"P") (r"I") [(r"max_tokens", 512), (r"foo", 1)]).body.max_tokens
        = 512 ∧
    (mkBedrockRequest (r"P") (r"I") [(r"max_tokens", 512), (r"foo", 1)]).body.temperature
        = 7 / 10 ∧
    mkBedrockRequest (r"P") (r"I") [(r"max_tokens", 512), (r"foo", 1)] =
      mkBedrockRequest (r"P") (r"I") [(r"max_tokens", 512)] := by
  refine ⟨?_, ?_, ?_⟩
  · exact ((c5_model_params (r"P") (r"I") _).1).trans (by simp [assocLookup])
  · exact ((c5_model_params (r"P") (r"I") _).2.1).trans (by simp [assocLookup])
  · exact (c5_model_params (r"P") (r"I") _).2.2 _ (by simp [assocLookup]) (by simp [assocLookup])

/-- C2: with a valid tier argument, if every configuration before `f` in
discovery order processes cleanly and processing `f` raises, the process
exits with code 1 and every observed event — rendering, inference,
persistence or publication — belongs to a file at or before `f`; no later
configuration is touched. -/
theorem c2_failfast (w : World) (prog envArg : String) (argvRest : List String)
    (l₁ : List String) (f : String) (l₂ : List String)
    (henv : lowerStr envArg = "beta" ∨ lowerStr envArg = "prod")
    (hfiles : w.promptFiles = l₁ ++ f :: l₂)
    (hok : ∀ g ∈ l₁, (process_prompt_file w (lowerStr envArg) g).2 = none)
    (hf : (process_prompt_file w (lowerStr envArg) f).2.isSome) :
    (mainRun w (prog :: envArg :: argvRest)).1 = 1 ∧
    ∀ e ∈ (mainRun w (prog :: envArg :: argvRest)).2, eventFile e ∈ l₁ ++ [f] := by
  have h1 : ¬(lowerStr envArg ≠ "beta" ∧ lowerStr envArg ≠ "prod") := by
    rcases henv with h | h <;> simp [h]
  have h2 : w.promptFiles.isEmpty ≠ true := by
    rw [hfiles]
    cases l₁ <;> simp
  have hmain : mainRun w (prog :: envArg :: argvRest) =
      runLoop w (lowerStr envArg) w.promptFiles := by
    simp only [mainRun, if_neg h1, if_neg h2]
  rw [hmain, hfiles]
  exact runLoop_failfast w (lowerStr envArg) l₁ f l₂ hok hf

/-- C2 witness: in a world where the second of three discovered files
fails to parse, the run exits 1 and all events belong to the first two
files. -/
theorem c2_witness :
    (mainRun w3 [r"prog", r"beta"]).1 = 1 ∧
    ∀ e ∈ (mainRun w3 [r"prog", r"beta"]).2, eventFile e ∈ [r"good"] ++ [r"bad"] :=
  c2_failfast w3 (r"prog") (r"beta") [] [r"good"] (r"bad") [r"after"]
    (Or.inl (by decide)) rfl (by decide) (by decide)

/-- C8: whenever discovery finds no configuration files, the run exits
with code 1 and produces no events at all: nothing is rendered, no
inference call is made, no file is saved and nothing is uploaded. -/
theorem c8_empty_discovery (w : World) (argv : List String)
    (h : w.promptFiles = []) :
    mainRun w argv = (1, []) := by
  cases argv with
  | nil => rfl
  | cons prog rest =>
    cases rest with
    | nil => rfl
    | cons envArg rest2 => simp [mainRun, h]

/-- C8 witness: the theorem applied to a world with no prompt files. -/
theorem c8_witness : mainRun w4 [r"prog", r"beta"] = (1, []) :=
  c8_empty_discovery w4 _ rfl

/-- C3: once the earlier stages of an iteration succeed, an unset bucket
for the active environment makes the iteration finish without error and
without any upload attempt, while a set (non-empty) bucket whose upload
call fails makes the iteration end with that error. -/
theorem c3_publisher_skip_or_raise (w : World) (env f : String)
    (config : PromptConfig) (tpl : List Char) (gen : String)
    (hc : w.readConfig f = .ok config)
    (ht : load_template w config.template = .ok tpl)
    (hi : invoke_bedrock w ((render_template tpl config.vars).asString)
      config.instruction config.model_params = .ok gen)
    (hw : save_output w gen config.output_file = .ok ((r"outputs/") ++ config.output_file)) :
    ((if env = "beta" then w.s3BucketBeta else w.s3BucketProd) = none →
      (process_prompt_file w env f).2 = none ∧
      ∀ e ∈ (process_prompt_file w env f).1, isUpload e = false) ∧
    (∀ b err, (if env = "beta" then w.s3BucketBeta else w.s3BucketProd) = some b →
      b.isEmpty = false →
      w.s3Upload ((r"outputs/") ++ config.output_file) b
        ((if env = "beta" then (r"beta/outputs/") else (r"prod/outputs/"))
          ++ config.output_file) = .error err →
      (process_prompt_file w env f).2 = some err) := by
  constructor
  · intro hb
    simp only [process_prompt_file, hc, ht, hi, hw, hb]
    refine ⟨by trivial, ?_⟩
    intro e he
    simp only [List.mem_cons, List.not_mem_nil, or_false] at he
    rcases he with rfl | rfl | rfl <;> rfl
  · intro b err hb hbe hup
    simp only [process_prompt_file, hc, ht, hi, hw, hb, hbe, upload_to_s3, hup]
    simp

/-- C3 witness: the skip half at a world with no bucket configured, and
the raise half at a world whose beta bucket is set but whose upload call
fails with the error `denied`. -/
theorem c3_witness :
    ((process_prompt_file w0 (r"beta") (r"prompts/one.json")).2 = none ∧
      ∀ e ∈ (process_prompt_file w0 (r"beta") (r"prompts/one.json")).1,
        isUpload e = false) ∧
    (process_prompt_file w2 (r"beta") (r"prompts/one.json")).2 = some (r"denied") :=
  ⟨(c3_publisher_skip_or_raise w0 (r"beta") (r"prompts/one.json") config0 tpl0 (r"GEN")
      rfl rfl rfl rfl).1 rfl,
    (c3_publisher_skip_or_raise w2 (r"beta") (r"prompts/one.json") config0 tpl0 (r"GEN")
      rfl rfl rfl rfl).2 (r"bkt") (r"denied") rfl rfl rfl⟩

/-- C10: when the active environment's bucket variable holds the empty
string, the Python truthiness test skips publication exactly as in the
unset case: the iteration finishes without error and no upload happens. -/
theorem c10_empty_bucket_skip (w : World) (env f : String)
    (config : PromptConfig) (tpl : List Char) (gen : String)
    (hc : w.readConfig f = .ok config)
    (ht : load_template w config.template = .ok tpl)
    (hi : invoke_bedrock w ((render_template tpl config.vars).asString)
      config.instruction config.model_params = .ok gen)
    (hw : save_output w gen config.output_file = .ok ((r"outputs/") ++ config.output_file))
    (hb : (if env = "beta" then w.s3BucketBeta else w.s3BucketProd) = some (r"")) :
    (process_prompt_file w env f).2 = none ∧
    ∀ e ∈ (process_prompt_file w env f).1, isUpload e = false := by
  simp only [process_prompt_file, hc, ht, hi, hw, hb]
  rw [if_pos (by decide)]
  refine ⟨by trivial, ?_⟩
  intro e he
  simp only [List.mem_cons, List.not_mem_nil, or_false] at he
  rcases he with rfl | rfl | rfl <;> rfl

/-- C10 witness: the theorem applied to a world whose beta bucket is the
empty string. -/
theorem c10_witness :
    (process_prompt_file w1 (r"beta") (r"prompts/one.json")).2 = none ∧
    ∀ e ∈ (process_prompt_file w1 (r"beta") (r"prompts/one.json")).1,
      isUpload e = false :=
  c10_empty_bucket_skip w1 (r"beta") (r"prompts/one.json") config0 tpl0 (r"GEN")
    rfl rfl rfl rfl rfl

/-- C7: for the same world (same configuration, oracles and content), a
beta run and a prod run of one iteration produce identical non-upload
events — the same rendered prompt, the same request to the backend, the
same generated text, and the same local artifact path and contents; the
environment can only influence the upload destination. -/
theorem c7_env_only_routing (w : World) (f : String) :
    ((process_prompt_file w (r"beta") f).1.filter (fun e => !isUpload e)) =
      ((process_prompt_file w (r"prod") f).1.filter (fun e => !isUpload e)) := by
  cases hc : w.readConfig f with
  | error e => simp [process_prompt_file, hc]
  | ok config =>
    cases ht : load_template w config.template with
    | error e => simp [process_prompt_file, hc, ht]
    | ok tpl =>
      cases hi : invoke_bedrock w ((render_template tpl config.vars).asString)
          config.instruction config.model_params with
      | error e => simp [process_prompt_file, hc, ht, hi, isUpload]
      | ok gen =>
        cases hw : save_output w gen config.output_file with
        | error e => simp [process_prompt_file, hc, ht, hi, hw, isUpload]
        | ok path =>
          simp only [process_prompt_file, hc, ht, hi, hw]
          norm_num
          repeat' split
          all_goals simp [isUpload]
